import Mathlib

/-!
Verification of the ObsidianOS installation wizard (`obsidian-wizard.py`).

The wizard is a single-threaded interactive terminal program.  We embed its
pure computational core in Lean: key decoding, menu cursor arithmetic, disk
and slot parsing, WiFi-network sorting, centering/ANSI-stripping, command
assembly, and the install/update workflow control structure.  Interactive
effects (keystrokes read from the terminal, output of external commands)
become explicit inputs of the embedded functions; an external command that
raises an exception is modelled by the input value `none`.
-/

namespace ObsidianWizard

/-! ## Python string helpers

Python `str` is a sequence of unicode code points, which matches Lean
`String` / `List Char` exactly for the operations used by the wizard.
The helpers below are written by structural recursion on the character
list so that every concrete instance evaluates inside the kernel. -/

/-- `pre` is a prefix of `cs` (used for Python `startswith` and for
locating a separator). -/
def isPrefixList : List Char → List Char → Bool
  | [], _ => true
  | _ :: _, [] => false
  | a :: as, b :: bs => a = b && isPrefixList as bs

/-- Python `s.startswith(pre)`. -/
def pyStartsWith (s pre : String) : Bool := isPrefixList pre.data s.data

/-- Python `s.lower()` (the wizard only lowercases ASCII). -/
def pyLower (s : String) : String := String.mk (s.data.map Char.toLower)

/-- Lexicographic comparison of character lists by code point, Python's
`str` ordering. -/
def listLt : List Char → List Char → Bool
  | [], [] => false
  | [], _ :: _ => true
  | _ :: _, [] => false
  | a :: as, b :: bs =>
    if a < b then true
    else if b < a then false
    else listLt as bs

/-- Python `a < b` on strings. -/
def pyStrLt (a b : String) : Bool := listLt a.data b.data

/-- Split a character list at every character satisfying `p`, keeping
empty fields (the behaviour of Python `split` with an explicit
separator). -/
def splitByAux (p : Char → Bool) : List Char → List Char → List (List Char)
  | [], cur => [cur.reverse]
  | c :: cs, cur =>
    if p c then cur.reverse :: splitByAux p cs []
    else splitByAux p cs (c :: cur)

/-- Python `s.split(sep)` for a one-character separator. -/
def pySplitChar (sep : Char) (s : String) : List String :=
  (splitByAux (fun c => c = sep) s.data []).map String.mk

/-- Python `s.split()` with no argument: split on whitespace, discarding
empty fields. -/
def pySplitWs (s : String) : List String :=
  ((splitByAux Char.isWhitespace s.data []).map String.mk).filter
    (fun w => w ≠ "")

/-- Python `s.strip()`: drop leading and trailing whitespace. -/
def pyStrip (s : String) : String :=
  String.mk
    (((s.data.dropWhile Char.isWhitespace).reverse.dropWhile
      Char.isWhitespace).reverse)

/-- Split a character list on a non-empty separator sequence,
non-overlapping and leftmost-first (Python `s.split(sep)` for a
multi-character `sep`).  The fuel argument only bounds the structural
recursion; `fuel = cs.length` processes everything. -/
def splitSeqGo (sep : List Char) : Nat → List Char → List Char → List (List Char)
  | _, [], cur => [cur.reverse]
  | 0, cs, cur => [cur.reverse ++ cs]
  | fuel + 1, c :: cs, cur =>
    if isPrefixList sep (c :: cs) then
      cur.reverse :: splitSeqGo sep fuel ((c :: cs).drop sep.length) []
    else splitSeqGo sep fuel cs (c :: cur)

/-- Python `s.split(sep)` for a non-empty separator string. -/
def pySplitStr (s sep : String) : List String :=
  (splitSeqGo sep.data s.data.length s.data []).map String.mk

/-- Python `' '.join(parts)`. -/
def pyJoinSpace : List String → String
  | [] => ""
  | [w] => w
  | w :: ws => w ++ " " ++ pyJoinSpace ws

/-- Python `s.split(' ')[0]`: the part of `s` before the first space
(the whole of `s` when it has no space). -/
def pyFirstField (s : String) : String :=
  String.mk (s.data.takeWhile (fun c => c ≠ ' '))

/-- The numeric value of a string of decimal digits, `none` otherwise. -/
def pyToNat? (s : String) : Option Nat :=
  if s.data ≠ [] ∧ s.data.all Char.isDigit then
    some (s.data.foldl (fun acc c => acc * 10 + (c.toNat - 48)) 0)
  else none

/-! ## Input decoder (`get_key`, source lines 184-195)

`get_key` reads one character from stdin; when it is the escape byte it
reads two further characters and returns the concatenation.  We model the
pending input as a list of "keys", each key being the character list that
one `get_key` call returns. -/

/-- One `get_key` result: the characters the call returned.  (`get_key`
returns a Python string; we use its character list.) -/
abbrev Key := List Char

/-- `get_key` on an input stream: take one character; if it is `0x1B`,
also take up to the next two characters (at end of input Python's
`read(2)` returns what is left).  Returns the decoded key and the rest of
the stream, or `none` at end of input. -/
def get_key : List Char → Option (Key × List Char)
  | [] => none
  | c :: rest =>
    if c = '\x1b' then
      (some (c :: rest.take 2, rest.drop 2))
    else
      (some ([c], rest))

/-- The action a key produces inside `selection_menu`
(source lines 197-209): move the cursor up or down, return the selected
option (`enter`), return `None` (`cancel`, on Ctrl-C or q/Q), or fall
through every branch of the dispatch so the loop re-reads a key
(`ignored`). -/
inductive MenuAction where
  | up
  | down
  | enter
  | cancel
  | ignored
  deriving DecidableEq, Repr

/-- The key dispatch of `selection_menu` (source lines 202-209):
`'\x1b[A'` → up, `'\x1b[B'` → down, `'\r'` → enter,
`'\x03'` or `key.lower() == 'q'` → cancel; any other key matches no
branch and the loop re-reads. -/
def classifyKey (k : Key) : MenuAction :=
  if k = ['\x1b', '[', 'A'] then MenuAction.up
  else if k = ['\x1b', '[', 'B'] then MenuAction.down
  else if k = ['\r'] then MenuAction.enter
  else if k = ['\x03'] ∨ k.map Char.toLower = ['q'] then MenuAction.cancel
  else MenuAction.ignored

/-! ## Menu cursor arithmetic (`selection_menu`, source lines 203-205)

Python evaluates `(selected_index - 1) % len(options)` and
`(selected_index + 1) % len(options)` with flooring `%`, which for a
positive modulus agrees with Lean's `Int.emod`. -/

/-- Cursor move on the Up key: `(selected_index - 1) % n`. -/
def menuUp (c n : Int) : Int := (c - 1) % n

/-- Cursor move on the Down key: `(selected_index + 1) % n`. -/
def menuDown (c n : Int) : Int := (c + 1) % n

/-! ## Disk discovery (`get_disks`, source lines 211-225)

The `lsblk -d -n -o NAME,SIZE,MODEL` output is an explicit input; an
unavailable tool (the `except` branch) is the input `none`. -/

/-- One line of `lsblk` output (source lines 215-222): skipped when blank;
otherwise split on whitespace, and when at least two fields are present
rendered as `/dev/NAME (SIZE) - MODEL`, the model defaulting to
`Unknown`. -/
def parseDiskLine (line : String) : Option String :=
  if pyStrip line ≠ "" then
    match pySplitWs line with
    | name :: size :: rest =>
      some ("/dev/" ++ name ++ " (" ++ size ++ ") - " ++
        (if rest.isEmpty then "Unknown" else pyJoinSpace rest))
    | _ => none
  else none

/-- `get_disks` (source lines 211-225): strip the raw output, split it on
newlines, parse each line; any exception yields `[]`. -/
def get_disks (lsblkOutput : Option String) : List String :=
  match lsblkOutput with
  | none => []
  | some out => (pySplitChar '\n' (pyStrip out)).filterMap parseDiskLine

/-! ## Slot discovery (`get_current_slots`, source lines 73-84) -/

/-- `re.search` for the pattern `Slot\s+([ab])` on a line: at each
position try to match the literal `Slot`, then at least one whitespace
character, then `a` or `b`; the first match wins and its captured slot
letter is returned.  (The greedy `\s+` cannot backtrack into a successful
match because `a`/`b` are not whitespace.) -/
def slotScan : List Char → Option Char
  | [] => none
  | 'S' :: 'l' :: 'o' :: 't' :: r =>
    let ws := r.takeWhile Char.isWhitespace
    let r2 := r.dropWhile Char.isWhitespace
    match r2.head? with
    | some c =>
      if ws ≠ [] ∧ (c = 'a' ∨ c = 'b') then some c
      else slotScan ('l' :: 'o' :: 't' :: r)
    | none => slotScan ('l' :: 'o' :: 't' :: r)
  | _ :: rest => slotScan rest

/-- `get_current_slots` (source lines 73-84): scrape `Slot a`/`Slot b`
occurrences from the `obsidianctl status` output; when the command raises
(input `none`) or no slot line is found, fall back to `["a", "b"]`. -/
def get_current_slots (statusOutput : Option String) : List String :=
  match statusOutput with
  | none => ["a", "b"]
  | some out =>
    let slots := (pySplitChar '\n' out).filterMap
      (fun line => (slotScan line.data).map (fun c => String.mk [c]))
    if slots = [] then ["a", "b"] else slots

/-! ## WiFi scan results (`scan_wifi_networks`, source lines 609-640) -/

/-- A parsed WiFi network record; every field is optional because the
parser only sets the keys it finds (`dict.get` supplies the defaults). -/
structure WifiNetwork where
  cell : Option String := none
  essid : Option String := none
  encrypted : Option Bool := none
  quality : Option String := none
  deriving DecidableEq, Repr

/-- The sort key of source line 637:
`x.get('quality', '0/0').split('/')[0]` — the *string* before the first
slash of the quality field. -/
def wifiSortKey (n : WifiNetwork) : String :=
  (pySplitChar '/' (n.quality.getD "0/0")).headD ""

/-- The numeric signal quality the record reports: the numerator of the
`Quality=m/n` fraction read as a number. -/
def qualityNumerator (n : WifiNetwork) : Nat :=
  (pyToNat? (wifiSortKey n)).getD 0

/-- Insert a network into a list already sorted by
`networks.sort(key=..., reverse=True)` order: larger *string* keys first,
ties keeping their original relative order.  `x` moves past `y` exactly
when `y`'s key is strictly larger, so an element inserted from a position
earlier in the original list stays before its ties. -/
def insertNetworkDesc (x : WifiNetwork) : List WifiNetwork → List WifiNetwork
  | [] => [x]
  | y :: ys =>
    if pyStrLt (wifiSortKey x) (wifiSortKey y) then y :: insertNetworkDesc x ys
    else x :: y :: ys

/-- The sort of source lines 636-637:
`networks.sort(key=..., reverse=True)` — a stable sort placing larger
*string* keys first (Python string comparison is lexicographic on code
points, as is Lean's `String` order).  Python's stable sort and this
stable insertion sort agree extensionally. -/
def sortNetworks : List WifiNetwork → List WifiNetwork
  | [] => []
  | n :: ns => insertNetworkDesc n (sortNetworks ns)

/-- The network list the scan-and-select menu offers
(`networks[:10]`, source line 796). -/
def scanMenuNetworks (networks : List WifiNetwork) : List WifiNetwork :=
  (sortNetworks networks).take 10

/-! ## Renderer: ANSI stripping and centering
(`strip_ansi` lines 134-136, `print_centered` lines 124-132) -/

/-- Style constants of the `Colors` class (source lines 12-26); only the
ones the theorems use. -/
def Colors.DIM : String := "\x1b[2m"

/-- `Colors.ENDC` (source line 19). -/
def Colors.ENDC : String := "\x1b[0m"

/-- `Colors.BRIGHT_CYAN` (source line 25). -/
def Colors.BRIGHT_CYAN : String := "\x1b[96m"

/-- Character class `[@-Z\\-_]` of the `strip_ansi` regex: a single-byte
escape-sequence terminator. -/
def isAnsiSingle (c : Char) : Bool :=
  ('@' ≤ c ∧ c ≤ 'Z') ∨ ('\\' ≤ c ∧ c ≤ '_')

/-- Character class `[0-?]` (CSI parameter bytes, `0x30`–`0x3F`). -/
def isAnsiParam (c : Char) : Bool := '0' ≤ c ∧ c ≤ '?'

/-- Character class of CSI intermediate bytes (`0x20`–`0x2F`). -/
def isAnsiInter (c : Char) : Bool := ' ' ≤ c ∧ c ≤ '/'

/-- Character class `[@-~]` (CSI final bytes). -/
def isAnsiFinal (c : Char) : Bool := '@' ≤ c ∧ c ≤ '~'

/-- Match the CSI alternative of the `strip_ansi` regex after `ESC [`:
zero or more parameter bytes, zero or more intermediate bytes, then one
final byte.  Returns the rest of the input after the match.  (The greedy
stars need no backtracking: the three CSI classes are pairwise
disjoint.) -/
def matchCsi (r : List Char) : Option (List Char) :=
  match (r.dropWhile isAnsiParam).dropWhile isAnsiInter with
  | f :: r3 => if isAnsiFinal f then some r3 else none
  | [] => none

/-- Match the part of the `strip_ansi` regex after the initial `\x1B`:
either one single-byte terminator (`0x40`–`0x5A` or `0x5C`–`0x5F`), or a
full CSI sequence introduced by `[`.  Returns the rest of the input after
the match, or `none` when the regex does not match here. -/
def matchEscBody : List Char → Option (List Char)
  | [] => none
  | d :: r =>
    if isAnsiSingle d then some r
    else if d = '[' then matchCsi r
    else none

/-- `strip_ansi` (source lines 134-136) on a character list: delete every
non-overlapping, leftmost-first match of the escape-sequence regex; an
escape byte that starts no complete match is kept (the regex simply does
not match there).  The `fuel` argument only bounds the recursion
structurally; by `matchEscBody_length_le` any `fuel ≥` the input length
processes the whole input, and `stripAnsiGo_fuel_irrelevant` below shows
the result does not depend on the bound. -/
def stripAnsiGo : Nat → List Char → List Char
  | _, [] => []
  | 0, cs => cs
  | fuel + 1, c :: rest =>
    if c = '\x1b' then
      match matchEscBody rest with
      | some rest2 => stripAnsiGo fuel rest2
      | none => c :: stripAnsiGo fuel rest
    else c :: stripAnsiGo fuel rest

/-- `strip_ansi` (source lines 134-136). -/
def strip_ansi (s : String) : String :=
  String.mk (stripAnsiGo s.data.length s.data)

/-- The left margin `print_centered` gives a line (source line 131):
`max(0, (width - len(line)) // 2)`, computed from the raw line length.
Over `Nat`, truncating subtraction followed by division agrees with
Python's clamped floor expression. -/
def printCenteredPadding (width : Nat) (line : String) : Nat :=
  (width - line.length) / 2

/-! ## Command assembly (`installation_flow`, source lines 1039-1050) -/

/-- `OBSIDIANCTL_PATH` (source line 71): the module sets
`IS_ARCHISO = True`, so the plain tool name is used. -/
def OBSIDIANCTL_PATH : String := "obsidianctl"

/-- The partition-size dictionary (source lines 62-67 hold its default
values). -/
structure PartitionSizes where
  esp_size : String
  rootfs_size : String
  etc_size : String
  var_size : String
  deriving DecidableEq, Repr

/-- `DEFAULT_PARTITION_SIZES` (source lines 62-67). -/
def DEFAULT_PARTITION_SIZES : PartitionSizes :=
  { esp_size := "512M", rootfs_size := "10G", etc_size := "1G", var_size := "5G" }

/-- The command string built by `installation_flow` (source lines
1040-1049): start from `OBSIDIANCTL_PATH action`, append `--dual-boot`
when dual boot is on, the four size flags, `--use-f2fs` when the chosen
filesystem is `f2fs`, and finally the positional disk and image paths. -/
def assembleInstallCommand (action : String) (dualBoot : Bool)
    (ps : PartitionSizes) (fsType : String) (disk imagePath : String) : String :=
  let command := OBSIDIANCTL_PATH ++ " " ++ action
  let command := if dualBoot then command ++ " --dual-boot" else command
  let command := command ++ " --esp-size " ++ ps.esp_size
  let command := command ++ " --rootfs-size " ++ ps.rootfs_size
  let command := command ++ " --etc-size " ++ ps.etc_size
  let command := command ++ " --var-size " ++ ps.var_size
  let command := if fsType = "f2fs" then command ++ " --use-f2fs" else command
  command ++ " " ++ disk ++ " " ++ imagePath

/-- The argument tokens of the spec's Command Assembler contract, in the
stated fixed order: dual-boot flag, the four partition-size flags,
filesystem-type flag, then the positional disk and image arguments. -/
def installArgTokens (dualBoot : Bool) (ps : PartitionSizes)
    (fsType : String) (disk imagePath : String) : List String :=
  (if dualBoot then ["--dual-boot"] else []) ++
    ["--esp-size", ps.esp_size, "--rootfs-size", ps.rootfs_size,
     "--etc-size", ps.etc_size, "--var-size", ps.var_size] ++
    (if fsType = "f2fs" then ["--use-f2fs"] else []) ++
    [disk, imagePath]

/-- Append a list of tokens to a command string, one space before each. -/
def appendTokens (base : String) (tokens : List String) : String :=
  tokens.foldl (fun acc t => acc ++ " " ++ t) base

/-! ## Network connectivity resolver
(`wifi_connection_menu`, source lines 710-776)

The machine environment probed by the resolver becomes an explicit
record: `is_laptop()`, `has_wired_connection()`, the three
`shutil.which` probes of source lines 727-733, `get_wifi_interfaces()`,
and the outcome of the interactive scan/manual-connection loop of lines
761-776 (`true` when some connection attempt succeeds, `false` when the
user cancels the WiFi menu). -/
structure NetEnv where
  laptop : Bool
  wired : Bool
  hasIwctl : Bool
  hasNmcli : Bool
  hasWpa : Bool
  interfaces : List String
  sessionSuccess : Bool
  deriving DecidableEq, Repr

/-- The `wifi_tools` list built in source lines 727-733: `iwctl`,
`nmcli`, `wpa_supplicant`, in that order, each included when its
executable is found. -/
def wifiToolsOf (env : NetEnv) : List String :=
  (if env.hasIwctl then ["iwctl"] else []) ++
    (if env.hasNmcli then ["nmcli"] else []) ++
    (if env.hasWpa then ["wpa_supplicant"] else [])

/-- `wifi_connection_menu` (source lines 710-776): desktops and machines
with a wired connection skip WiFi setup (`True`); a laptop without wired
connectivity fails the flow (`False`) when no WiFi tool executable is
found (line 741) or no wireless interface is enumerable (line 751);
otherwise the interactive loop decides. -/
def wifi_connection_menu (env : NetEnv) : Bool :=
  if env.laptop = false then true
  else if env.wired = true then true
  else if wifiToolsOf env = [] then false
  else if env.interfaces = [] then false
  else env.sessionSuccess

/-! ## Workflow controller
(`installation_flow` lines 999-1050, `update_flow` lines 1052-1098)

Each flow is a linear pipeline; we record, besides the optionally
assembled command, the trace of steps the flow reached. -/

/-- The steps a flow can reach, in source order. -/
inductive Step where
  | dualBootMenu
  | wifiSetup
  | partitionSettings
  | diskDiscovery
  | diskSelection
  | diskModeMenu
  | slotSelection
  | imageSelection
  | finalConfirm
  | execute
  deriving DecidableEq, Repr

/-- The interactive/environment inputs of one `installation_flow` run:
the result of each menu (`none` = cancelled), the network environment,
the advanced-settings result (partition sizes and filesystem type), the
`lsblk` output, and the final-confirmation answer. -/
structure InstallInputs where
  dualBootChoice : Option String
  netEnv : NetEnv
  advancedSettings : Option (PartitionSizes × String)
  lsblkOutput : Option String
  diskChoice : Option String
  imagePath : Option String
  finalConfirm : Bool

/-- `installation_flow` (source lines 999-1050): dual-boot menu → WiFi
resolver → advanced settings → disk discovery → disk menu → image
selection → final confirmation → command assembly and execution.  Any
cancelled or failed step returns immediately (`none`, i.e. back to the
main menu).  The first component is the command handed to `run_command`,
when one is executed at all. -/
def installation_flow (action : String) (inp : InstallInputs) :
    Option String × List Step :=
  match inp.dualBootChoice with
  | none => (none, [Step.dualBootMenu])
  | some dbc =>
    let dualBoot := pyStartsWith dbc "Enable"
    if wifi_connection_menu inp.netEnv = false then
      (none, [Step.dualBootMenu, Step.wifiSetup])
    else
      match inp.advancedSettings with
      | none => (none, [Step.dualBootMenu, Step.wifiSetup, Step.partitionSettings])
      | some (ps, fsType) =>
        if get_disks inp.lsblkOutput = [] then
          (none, [Step.dualBootMenu, Step.wifiSetup, Step.partitionSettings,
            Step.diskDiscovery])
        else
          match inp.diskChoice with
          | none => (none, [Step.dualBootMenu, Step.wifiSetup,
              Step.partitionSettings, Step.diskDiscovery, Step.diskSelection])
          | some dc =>
            let disk := pyFirstField dc
            match inp.imagePath with
            | none => (none, [Step.dualBootMenu, Step.wifiSetup,
                Step.partitionSettings, Step.diskDiscovery, Step.diskSelection,
                Step.imageSelection])
            | some image =>
              if inp.finalConfirm then
                (some (assembleInstallCommand (pyLower action) dualBoot ps fsType
                    disk image),
                  [Step.dualBootMenu, Step.wifiSetup, Step.partitionSettings,
                    Step.diskDiscovery, Step.diskSelection, Step.imageSelection,
                    Step.finalConfirm, Step.execute])
              else
                (none, [Step.dualBootMenu, Step.wifiSetup, Step.partitionSettings,
                  Step.diskDiscovery, Step.diskSelection, Step.imageSelection,
                  Step.finalConfirm])

/-- The interactive/environment inputs of one `update_flow` run. -/
structure UpdateInputs where
  diskModeChoice : Option String
  lsblkOutput : Option String
  diskChoice : Option String
  statusOutput : Option String
  slotChoice : Option String
  imagePath : Option String
  finalConfirm : Bool

/-- The tail of `update_flow` after the optional disk selection (source
lines 1079-1098): slot menu (options built from `get_current_slots`),
image selection, final confirmation, then
`obsidianctl update SLOT IMAGE [--device DISK]`. -/
def updateFlowRest (inp : UpdateInputs) (selectedDisk : Option String)
    (trace : List Step) : Option String × List Step :=
  match inp.slotChoice with
  | none => (none, trace ++ [Step.slotSelection])
  | some sc =>
    let slot := pyLower ((pySplitStr sc "Slot ").getD 1 "")
    match inp.imagePath with
    | none => (none, trace ++ [Step.slotSelection, Step.imageSelection])
    | some image =>
      if inp.finalConfirm then
        let command := OBSIDIANCTL_PATH ++ " update " ++ slot ++ " " ++ image
        let command :=
          match selectedDisk with
          | some d => command ++ " --device " ++ d
          | none => command
        (some command, trace ++ [Step.slotSelection, Step.imageSelection,
          Step.finalConfirm, Step.execute])
      else
        (none, trace ++ [Step.slotSelection, Step.imageSelection,
          Step.finalConfirm])

/-- `update_flow` (source lines 1052-1098), used by both the Update and
the Repair menu entries: a Current-Disk/Select-a-Disk menu, the optional
disk discovery and selection, then slot and image selection and the
final confirmation.  No dual-boot, WiFi or partition-settings step
appears anywhere in it. -/
def update_flow (inp : UpdateInputs) : Option String × List Step :=
  match inp.diskModeChoice with
  | none => (none, [Step.diskModeMenu])
  | some dmc =>
    if dmc = "Select a Disk" then
      if get_disks inp.lsblkOutput = [] then
        (none, [Step.diskModeMenu, Step.diskDiscovery])
      else
        match inp.diskChoice with
        | none => (none, [Step.diskModeMenu, Step.diskDiscovery,
            Step.diskSelection])
        | some dc =>
          updateFlowRest inp (some (pyFirstField dc))
            [Step.diskModeMenu, Step.diskDiscovery, Step.diskSelection]
    else
      updateFlowRest inp none [Step.diskModeMenu]

/-! ## Confirmation dialogs
(`confirm` lines 227-312, `show_status_screen` lines 398-504)

Both are two-option loops driven by `get_key`; we model one run as a
function of the list of keys pressed.  The blocking loop never ends
without a terminal key, so an exhausted key list maps to `none`. -/

/-- The options of `confirm` (source line 257). -/
def confirmOptions : List String := ["Yes, Continue", "No, Go Back"]

/-- The options of `show_status_screen` (source line 441). -/
def statusOptions : List String := ["Yes, Execute Now", "No, Cancel"]

/-- The key loop of `confirm` (source lines 260-312): Up/Down move the
cursor with wraparound, Enter returns whether the selected option starts
with `Yes`, Ctrl-C or q/Q returns `False`, anything else redraws and
re-reads. -/
def confirmAux (selectedIndex : Int) : List Key → Option Bool
  | [] => none
  | k :: rest =>
    if k = ['\x1b', '[', 'A'] then
      confirmAux (menuUp selectedIndex (confirmOptions.length : Int)) rest
    else if k = ['\x1b', '[', 'B'] then
      confirmAux (menuDown selectedIndex (confirmOptions.length : Int)) rest
    else if k = ['\r'] then
      some (pyStartsWith (confirmOptions.getD selectedIndex.toNat "") "Yes")
    else if k = ['\x03'] ∨ k.map Char.toLower = ['q'] then some false
    else confirmAux selectedIndex rest

/-- `confirm` (source lines 227-312): the loop starts with the cursor on
option 0. -/
def confirm (keys : List Key) : Option Bool := confirmAux 0 keys

/-- The key loop of `show_status_screen` (source lines 444-504): like
`confirm`, but Enter returns whether the selected option equals
`Yes, Execute Now`. -/
def showStatusAux (selectedIndex : Int) : List Key → Option Bool
  | [] => none
  | k :: rest =>
    if k = ['\x1b', '[', 'A'] then
      showStatusAux (menuUp selectedIndex (statusOptions.length : Int)) rest
    else if k = ['\x1b', '[', 'B'] then
      showStatusAux (menuDown selectedIndex (statusOptions.length : Int)) rest
    else if k = ['\r'] then
      some (statusOptions.getD selectedIndex.toNat "" = "Yes, Execute Now")
    else if k = ['\x03'] ∨ k.map Char.toLower = ['q'] then some false
    else showStatusAux selectedIndex rest

/-- `show_status_screen` (source lines 398-504): the loop starts with
the cursor on option 0. -/
def show_status_screen (keys : List Key) : Option Bool := showStatusAux 0 keys

/-! ## Concrete fixtures used by witnesses and counterexamples -/

/-- A desktop environment: the WiFi resolver is skipped entirely. -/
def desktopNetEnv : NetEnv :=
  { laptop := false, wired := false, hasIwctl := false, hasNmcli := false,
    hasWpa := false, interfaces := [], sessionSuccess := false }

/-- A laptop without wired connectivity on which no WiFi backend
executable is discoverable, though a wireless interface exists. -/
def noBackendNetEnv : NetEnv :=
  { laptop := true, wired := false, hasIwctl := false, hasNmcli := false,
    hasWpa := false, interfaces := ["wlan0"], sessionSuccess := true }

/-- An install run cancelled at the very first menu. -/
def cancelledInstallInputs : InstallInputs :=
  { dualBootChoice := none, netEnv := desktopNetEnv, advancedSettings := none,
    lsblkOutput := none, diskChoice := none, imagePath := none,
    finalConfirm := false }

/-- An install run in which every step completes. -/
def completedInstallInputs : InstallInputs :=
  { dualBootChoice := some "Enable Dual Boot", netEnv := desktopNetEnv,
    advancedSettings := some
      ({ esp_size := "512M", rootfs_size := "5G", etc_size := "1G",
         var_size := "5G" }, "f2fs"),
    lsblkOutput := some "sda 100G X", diskChoice := some "/dev/sda (100G) - X",
    imagePath := some "/etc/system.sfs", finalConfirm := true }

/-- An install run blocked by the network resolver. -/
def noBackendInstallInputs : InstallInputs :=
  { completedInstallInputs with netEnv := noBackendNetEnv }

/-- A scanned network of low signal quality whose quality numerator has
fewer digits than `highQualityNet`'s. -/
def lowQualityNet : WifiNetwork := { essid := some "low", quality := some "9/70" }

/-- A scanned network of higher signal quality. -/
def highQualityNet : WifiNetwork :=
  { essid := some "high", quality := some "54/70" }

/-- An update run in which the user picks `Select a Disk` and every step
completes. -/
def selectDiskUpdateInputs : UpdateInputs :=
  { diskModeChoice := some "Select a Disk", lsblkOutput := some "sda 100G X",
    diskChoice := some "/dev/sda (100G) - X", statusOutput := none,
    slotChoice := some "Slot A", imagePath := some "/etc/system.sfs",
    finalConfirm := true }

/-! ## Helper lemmas -/

/-- A successful CSI match consumes only characters of its input. -/
theorem matchCsi_length_le (r r' : List Char)
    (h : matchCsi r = some r') : r'.length ≤ r.length := by
  unfold matchCsi at h
  have hlen : ((r.dropWhile isAnsiParam).dropWhile isAnsiInter).length ≤ r.length :=
    le_trans (List.dropWhile_suffix _).sublist.length_le
      (List.dropWhile_suffix _).sublist.length_le
  revert h hlen
  cases hm : (r.dropWhile isAnsiParam).dropWhile isAnsiInter with
  | nil => intro h _; simp at h
  | cons f r3 =>
    intro h hlen
    dsimp only at h
    by_cases h3 : isAnsiFinal f = true
    · rw [if_pos h3] at h
      injection h with h
      subst h
      simp only [List.length_cons] at hlen
      omega
    · rw [if_neg h3] at h
      simp at h

/-- A successful `matchEscBody` consumes at least the inspected head. -/
theorem matchEscBody_length_le (cs r : List Char)
    (h : matchEscBody cs = some r) : r.length ≤ cs.length := by
  match cs with
  | [] => simp [matchEscBody] at h
  | d :: t =>
    simp only [matchEscBody] at h
    by_cases h1 : isAnsiSingle d = true
    · rw [if_pos h1] at h
      injection h with h
      subst h
      exact Nat.le_succ _
    · rw [if_neg h1] at h
      by_cases h2 : d = '['
      · rw [if_pos h2] at h
        exact le_trans (matchCsi_length_le _ _ h) (Nat.le_succ _)
      · rw [if_neg h2] at h
        simp at h

/-- Any two sufficient fuel bounds give the same stripped output. -/
theorem stripAnsiGo_fuel_irrelevant (fuel fuel' : Nat) (cs : List Char)
    (h : cs.length ≤ fuel) (h' : cs.length ≤ fuel') :
    stripAnsiGo fuel cs = stripAnsiGo fuel' cs := by
  induction fuel generalizing fuel' cs with
  | zero =>
    cases cs with
    | nil => cases fuel' <;> rfl
    | cons c rest => simp at h
  | succ n ih =>
    cases cs with
    | nil => cases fuel' <;> rfl
    | cons c rest =>
      cases fuel' with
      | zero => simp at h'
      | succ m =>
        simp only [List.length_cons, Nat.succ_le_succ_iff] at h h'
        simp only [stripAnsiGo]
        by_cases hc : c = '\x1b'
        · rw [if_pos hc, if_pos hc]
          cases hm : matchEscBody rest with
          | some rest2 =>
            have hr2 : rest2.length ≤ rest.length := matchEscBody_length_le _ _ hm
            exact ih m rest2 (le_trans hr2 h) (le_trans hr2 h')
          | none =>
            exact congrArg (c :: ·) (ih m rest h h')
        · rw [if_neg hc, if_neg hc]
          exact congrArg (c :: ·) (ih m rest h h')


/-- Two strings with the same character list are equal. -/
theorem strEqOfData (a b : String) (h : a.data = b.data) : a = b := by
  cases a; cases b; exact congrArg String.mk h

/-- Iterating the Down move `k` times from an in-range cursor lands on
`(c + k) % n`. -/
theorem menuDown_iter (n c : Int) (hc0 : 0 ≤ c) (hcn : c < n) :
    ∀ k : Nat, (fun x => menuDown x n)^[k] c = (c + k) % n := by
  intro k
  induction k with
  | zero => simpa using (Int.emod_eq_of_lt hc0 hcn).symm
  | succ m ihm =>
    rw [Function.iterate_succ_apply', ihm]
    show ((c + m) % n + 1) % n = (c + (m + 1 : Nat)) % n
    conv_rhs => rw [show (c + ((m : Nat) + 1 : Nat) : Int) = (c + m) + 1 by
      push_cast; ring]
    rw [Int.add_emod ((c + m) % n) 1, Int.emod_emod_of_dvd _ dvd_rfl,
      ← Int.add_emod]

/-- Iterating the Up move `k` times from an in-range cursor lands on
`(c - k) % n`. -/
theorem menuUp_iter (n c : Int) (hc0 : 0 ≤ c) (hcn : c < n) :
    ∀ k : Nat, (fun x => menuUp x n)^[k] c = (c - k) % n := by
  intro k
  induction k with
  | zero => simpa using (Int.emod_eq_of_lt hc0 hcn).symm
  | succ m ihm =>
    rw [Function.iterate_succ_apply', ihm]
    show ((c - m) % n - 1) % n = (c - (m + 1 : Nat)) % n
    conv_rhs => rw [show (c - ((m : Nat) + 1 : Nat) : Int) = (c - m) - 1 by
      push_cast; ring]
    rw [Int.sub_emod ((c - m) % n) 1, Int.emod_emod_of_dvd _ dvd_rfl,
      ← Int.sub_emod]

/-- `installation_flow` hands a command to `run_command` exactly when
every step of the pipeline completed, and the command is then assembled
from the collected disk and image choices. -/
theorem installation_flow_some_iff (action : String) (inp : InstallInputs)
    (cmd : String) :
    (installation_flow action inp).1 = some cmd ↔
      ∃ dbc ps fsType dc image,
        inp.dualBootChoice = some dbc ∧
        wifi_connection_menu inp.netEnv = true ∧
        inp.advancedSettings = some (ps, fsType) ∧
        get_disks inp.lsblkOutput ≠ [] ∧
        inp.diskChoice = some dc ∧
        inp.imagePath = some image ∧
        inp.finalConfirm = true ∧
        cmd = assembleInstallCommand (pyLower action) (pyStartsWith dbc "Enable")
          ps fsType (pyFirstField dc) image := by
  unfold installation_flow
  cases hdb : inp.dualBootChoice with
  | none => simp [hdb]
  | some dbc =>
    cases hw : wifi_connection_menu inp.netEnv with
    | false => simp [hw]
    | true =>
      cases hadv : inp.advancedSettings with
      | none => simp [hw]
      | some psfs =>
        obtain ⟨ps, fsType⟩ := psfs
        by_cases hdisks : get_disks inp.lsblkOutput = []
        · simp [hw, hdisks]
        · cases hdc : inp.diskChoice with
          | none => simp [hw, hdisks]
          | some dc =>
            cases himg : inp.imagePath with
            | none => simp [hw, hdisks]
            | some image =>
              cases hfc : inp.finalConfirm with
              | false => simp [hw, hdisks]
              | true =>
                simp [hw, hdisks, eq_comm]
                constructor
                · intro h
                  exact ⟨ps, fsType, ⟨rfl, rfl⟩, h⟩
                · rintro ⟨x, y, ⟨hx, hy⟩, h⟩
                  subst hx; subst hy
                  exact h

/-- Every step `updateFlowRest` adds to the trace is one of slot
selection, image selection, final confirmation, execution. -/
theorem updateFlowRest_steps (inp : UpdateInputs) (d : Option String)
    (trace : List Step) (s : Step)
    (h : s ∈ (updateFlowRest inp d trace).2) :
    s ∈ trace ∨ s ∈ [Step.slotSelection, Step.imageSelection,
      Step.finalConfirm, Step.execute] := by
  unfold updateFlowRest at h
  cases hsc : inp.slotChoice with
  | none => simp [hsc] at h; aesop
  | some sc =>
    cases himg : inp.imagePath with
    | none => simp [hsc, himg] at h; aesop
    | some image =>
      cases hfc : inp.finalConfirm with
      | false => simp [hsc, himg, hfc] at h; aesop
      | true => simp [hsc, himg, hfc] at h; aesop

/-- Every step `update_flow` reaches is a disk-mode, disk, slot, image,
confirmation or execution step — never the dual-boot menu, the WiFi
resolver or the partition-settings editor. -/
theorem update_flow_steps (inp : UpdateInputs) (s : Step)
    (h : s ∈ (update_flow inp).2) :
    s ∈ [Step.diskModeMenu, Step.diskDiscovery, Step.diskSelection,
      Step.slotSelection, Step.imageSelection, Step.finalConfirm,
      Step.execute] := by
  unfold update_flow at h
  cases hdm : inp.diskModeChoice with
  | none => simp [hdm] at h; simp [h]
  | some dmc =>
    by_cases hsel : dmc = "Select a Disk"
    · by_cases hdisks : get_disks inp.lsblkOutput = []
      · simp [hdm, hsel, hdisks] at h
        rcases h with h | h <;> simp [h]
      · cases hdc : inp.diskChoice with
        | none =>
          simp [hdm, hsel, hdisks, hdc] at h
          rcases h with h | h | h <;> simp [h]
        | some dc =>
          simp [hdm, hsel, hdisks, hdc] at h
          rcases updateFlowRest_steps inp _ _ s h with h | h
          · simp at h
            rcases h with h | h | h <;> simp [h]
          · simp at h
            rcases h with h | h | h | h <;> simp [h]
    · simp [hdm, hsel] at h
      rcases updateFlowRest_steps inp _ _ s h with h | h
      · simp at h
        simp [h]
      · simp at h
        rcases h with h | h | h | h <;> simp [h]

/-- When `updateFlowRest` produces a command, the slot-selection and
image-selection steps are in its trace. -/
theorem updateFlowRest_some_steps (inp : UpdateInputs) (d : Option String)
    (trace : List Step) (cmd : String)
    (h : (updateFlowRest inp d trace).1 = some cmd) :
    Step.slotSelection ∈ (updateFlowRest inp d trace).2 ∧
    Step.imageSelection ∈ (updateFlowRest inp d trace).2 := by
  unfold updateFlowRest at h ⊢
  cases hsc : inp.slotChoice with
  | none => simp [hsc] at h
  | some sc =>
    cases himg : inp.imagePath with
    | none => simp [hsc, himg] at h
    | some image =>
      cases hfc : inp.finalConfirm with
      | false => simp [hsc, himg, hfc] at h
      | true => simp [hsc, himg, hfc]

/-- When `update_flow` produces a command, the slot-selection and
image-selection steps are in its trace. -/
theorem update_flow_some_steps (inp : UpdateInputs) (cmd : String)
    (h : (update_flow inp).1 = some cmd) :
    Step.slotSelection ∈ (update_flow inp).2 ∧
    Step.imageSelection ∈ (update_flow inp).2 := by
  unfold update_flow at h ⊢
  cases hdm : inp.diskModeChoice with
  | none => simp [hdm] at h
  | some dmc =>
    by_cases hsel : dmc = "Select a Disk"
    · by_cases hdisks : get_disks inp.lsblkOutput = []
      · simp [hdm, hsel, hdisks] at h
      · cases hdc : inp.diskChoice with
        | none => simp [hdm, hsel, hdisks, hdc] at h
        | some dc =>
          simp [hdm, hsel, hdisks, hdc] at h ⊢
          exact updateFlowRest_some_steps inp _ _ cmd h
    · simp [hdm, hsel] at h ⊢
      exact updateFlowRest_some_steps inp _ _ cmd h

/-! ## Claim theorems -/

/-- C1: the external provisioning command is executed only when every
step of the Install flow has completed.  If any step (dual-boot choice,
network resolver, partition settings, disk discovery, disk selection,
image selection, final confirmation) is cancelled or fails, the flow
returns to the main menu without a command; and whenever a command is
produced, every step completed and the command is assembled from the
collected (present) disk path and image path. -/
theorem install_flow_aborts_on_cancelled_step (action : String)
    (inp : InstallInputs) :
    ((inp.dualBootChoice = none ∨ wifi_connection_menu inp.netEnv = false ∨
        inp.advancedSettings = none ∨ get_disks inp.lsblkOutput = [] ∨
        inp.diskChoice = none ∨ inp.imagePath = none ∨
        inp.finalConfirm = false) →
      (installation_flow action inp).1 = none) ∧
    (∀ cmd, (installation_flow action inp).1 = some cmd →
      ∃ dbc ps fsType dc image,
        inp.dualBootChoice = some dbc ∧
        inp.advancedSettings = some (ps, fsType) ∧
        inp.diskChoice = some dc ∧
        inp.imagePath = some image ∧
        inp.finalConfirm = true ∧
        cmd = assembleInstallCommand (pyLower action)
          (pyStartsWith dbc "Enable") ps fsType (pyFirstField dc) image) := by
  constructor
  · intro h
    cases hres : (installation_flow action inp).1 with
    | none => rfl
    | some cmd =>
      rcases (installation_flow_some_iff action inp cmd).mp hres with
        ⟨dbc, ps, fsType, dc, image, h1, h2, h3, h4, h5, h6, h7, _⟩
      rcases h with h | h | h | h | h | h | h
      · rw [h1] at h; exact absurd h (by simp)
      · rw [h2] at h; exact absurd h (by simp)
      · rw [h3] at h; exact absurd h (by simp)
      · exact absurd h h4
      · rw [h5] at h; exact absurd h (by simp)
      · rw [h6] at h; exact absurd h (by simp)
      · rw [h7] at h; exact absurd h (by simp)
  · intro cmd hres
    rcases (installation_flow_some_iff action inp cmd).mp hres with
      ⟨dbc, ps, fsType, dc, image, h1, _, h3, _, h5, h6, h7, h8⟩
    exact ⟨dbc, ps, fsType, dc, image, h1, h3, h5, h6, h7, h8⟩

/-- C1 witness: a run cancelled at the first menu produces no command; a
fully completed run produces exactly the assembled command. -/
theorem install_flow_aborts_on_cancelled_step_witness :
    (installation_flow "Install" cancelledInstallInputs).1 = none ∧
    (∃ dbc ps fsType dc image,
      completedInstallInputs.dualBootChoice = some dbc ∧
      completedInstallInputs.advancedSettings = some (ps, fsType) ∧
      completedInstallInputs.diskChoice = some dc ∧
      completedInstallInputs.imagePath = some image ∧
      completedInstallInputs.finalConfirm = true ∧
      ("obsidianctl install --dual-boot --esp-size 512M --rootfs-size 5G --etc-size 1G --var-size 5G --use-f2fs /dev/sda /etc/system.sfs" : String) =
        assembleInstallCommand (pyLower "Install") (pyStartsWith dbc "Enable")
          ps fsType (pyFirstField dc) image) :=
  ⟨(install_flow_aborts_on_cancelled_step "Install" cancelledInstallInputs).1
      (Or.inl rfl),
   (install_flow_aborts_on_cancelled_step "Install" completedInstallInputs).2
      "obsidianctl install --dual-boot --esp-size 512M --rootfs-size 5G --etc-size 1G --var-size 5G --use-f2fs /dev/sda /etc/system.sfs"
      (by decide)⟩

/-- C2: for the spec's example request the arguments appended after the
action are exactly `--dual-boot --esp-size 512M --rootfs-size 5G
--etc-size 1G --var-size 5G --use-f2fs /dev/sda /etc/system.sfs`; and in
general every assembled command is the tool path, the action, and then
the argument tokens in the fixed order dual-boot flag, esp-size,
rootfs-size, etc-size, var-size, filesystem flag, disk, image. -/
theorem install_command_flag_order :
    assembleInstallCommand "install" true
        { esp_size := "512M", rootfs_size := "5G", etc_size := "1G",
          var_size := "5G" } "f2fs" "/dev/sda" "/etc/system.sfs" =
      "obsidianctl install --dual-boot --esp-size 512M --rootfs-size 5G --etc-size 1G --var-size 5G --use-f2fs /dev/sda /etc/system.sfs" ∧
    ∀ (action : String) (dualBoot : Bool) (ps : PartitionSizes)
      (fsType disk imagePath : String),
      assembleInstallCommand action dualBoot ps fsType disk imagePath =
        appendTokens (OBSIDIANCTL_PATH ++ " " ++ action)
          (installArgTokens dualBoot ps fsType disk imagePath) := by
  constructor
  · rfl
  · intro action dualBoot ps fsType disk imagePath
    apply strEqOfData
    cases dualBoot <;> by_cases hf : fsType = "f2fs" <;>
      simp [assembleInstallCommand, appendTokens, installArgTokens, hf,
        OBSIDIANCTL_PATH]

/-- C4: for every menu of `n ≥ 1` options and every starting cursor in
`[0, n)`, pressing Down `n` times returns to the start, pressing Up `n`
times returns to the start, and a single move in either direction leaves
the cursor inside `[0, n)`. -/
theorem menu_cursor_wraparound (n c : Int) (hn : 0 < n) (hc0 : 0 ≤ c)
    (hcn : c < n) :
    (fun x => menuDown x n)^[n.toNat] c = c ∧
    (fun x => menuUp x n)^[n.toNat] c = c ∧
    (0 ≤ menuDown c n ∧ menuDown c n < n) ∧
    (0 ≤ menuUp c n ∧ menuUp c n < n) := by
  refine ⟨?_, ?_, ⟨Int.emod_nonneg _ hn.ne', Int.emod_lt_of_pos _ hn⟩,
    ⟨Int.emod_nonneg _ hn.ne', Int.emod_lt_of_pos _ hn⟩⟩
  · rw [menuDown_iter n c hc0 hcn, Int.toNat_of_nonneg hn.le,
      show c + n = c + n * 1 by ring, Int.add_mul_emod_self_left]
    exact Int.emod_eq_of_lt hc0 hcn
  · rw [menuUp_iter n c hc0 hcn, Int.toNat_of_nonneg hn.le,
      show c - n = c + n * (-1) by ring, Int.add_mul_emod_self_left]
    exact Int.emod_eq_of_lt hc0 hcn

/-- C4 witness: the three-option menu starting at cursor 1. -/
theorem menu_cursor_wraparound_witness :
    (fun x => menuDown x 3)^[(3 : Int).toNat] 1 = 1 ∧
    (fun x => menuUp x 3)^[(3 : Int).toNat] 1 = 1 ∧
    (0 ≤ menuDown 1 3 ∧ menuDown 1 3 < 3) ∧
    (0 ≤ menuUp 1 3 ∧ menuUp 1 3 < 3) :=
  menu_cursor_wraparound 3 1 (by decide) (by decide) (by decide)

/-- C5: `get_disks` returns `[]` (not an error) when the tool is
unavailable (`none`), when its output is empty, and when every line is
blank; and two valid rows yield exactly two descriptors in input
order. -/
theorem get_disks_robust :
    get_disks none = [] ∧
    get_disks (some "") = [] ∧
    get_disks (some "\n \n") = [] ∧
    get_disks (some "sda 100G Samsung SSD 970\nsdb 50G") =
      ["/dev/sda (100G) - Samsung SSD 970", "/dev/sdb (50G) - Unknown"] :=
  ⟨rfl, by decide, by decide, by decide⟩

/-- C3 counterexample: an escape byte followed by an unmapped two-byte
suffix, and a lone escape byte, do NOT resolve to Quit (the menu
dispatch matches no branch and silently re-reads), contradicting the
claim that every such sequence resolves to Quit. -/
theorem esc_sequences_not_quit_counterexample :
    classifyKey ['\x1b', '[', 'C'] ≠ MenuAction.cancel ∧
    classifyKey ['\x1b'] ≠ MenuAction.cancel ∧
    classifyKey ['\x1b', '[', 'C'] = MenuAction.ignored ∧
    classifyKey ['\x1b'] = MenuAction.ignored := by
  refine ⟨by decide, by decide, by decide, by decide⟩

/-- C3 (amended): the decoder maps `ESC [ A` to Up, `ESC [ B` to Down,
`0x0D` to Enter, `0x03` and `q`/`Q` to the cancelling action; an escape
byte with any other two-byte suffix, or a lone escape byte, produces no
menu action at all (the keystroke is ignored and the loop re-reads)
rather than Quit. -/
theorem key_decoder_mapping :
    (∀ rest : List Char,
      get_key ('\x1b' :: '[' :: 'A' :: rest) =
        some (['\x1b', '[', 'A'], rest) ∧
      get_key ('\x1b' :: '[' :: 'B' :: rest) =
        some (['\x1b', '[', 'B'], rest)) ∧
    classifyKey ['\x1b', '[', 'A'] = MenuAction.up ∧
    classifyKey ['\x1b', '[', 'B'] = MenuAction.down ∧
    classifyKey ['\r'] = MenuAction.enter ∧
    classifyKey ['\x03'] = MenuAction.cancel ∧
    classifyKey ['q'] = MenuAction.cancel ∧
    classifyKey ['Q'] = MenuAction.cancel ∧
    get_key ['\x1b'] = some (['\x1b'], []) ∧
    classifyKey ['\x1b'] = MenuAction.ignored ∧
    (∀ a b : Char, (a, b) ≠ ('[', 'A') → (a, b) ≠ ('[', 'B') →
      classifyKey ['\x1b', a, b] = MenuAction.ignored) := by
  refine ⟨?_, by decide, by decide, by decide, by decide, by decide,
    by decide, by decide, by decide, ?_⟩
  · intro rest
    constructor <;> simp [get_key]
  · intro a b hA hB
    by_cases ha : a = '['
    · subst ha
      by_cases hbA : b = 'A'
      · exact absurd (by rw [hbA]) hA
      · by_cases hbB : b = 'B'
        · exact absurd (by rw [hbB]) hB
        · simp [classifyKey, hbA, hbB]
    · simp [classifyKey, ha]

/-- C3 witness: a concrete unmapped escape sequence is ignored. -/
theorem key_decoder_mapping_witness :
    classifyKey ['\x1b', 'X', 'Y'] = MenuAction.ignored :=
  (key_decoder_mapping.2.2.2.2.2.2.2.2.2 'X' 'Y') (by decide) (by decide)

/-- C6: on a laptop without wired connectivity, when no WiFi backend
executable is discoverable or no wireless interface is enumerable, the
network resolver fails and the Install flow returns to the main menu
without attempting partition settings, disk discovery, or image
selection. -/
theorem wifi_failure_blocks_install (action : String) (inp : InstallInputs)
    (hlap : inp.netEnv.laptop = true) (hwired : inp.netEnv.wired = false)
    (hnone : wifiToolsOf inp.netEnv = [] ∨ inp.netEnv.interfaces = []) :
    wifi_connection_menu inp.netEnv = false ∧
    (installation_flow action inp).1 = none ∧
    Step.partitionSettings ∉ (installation_flow action inp).2 ∧
    Step.diskDiscovery ∉ (installation_flow action inp).2 ∧
    Step.imageSelection ∉ (installation_flow action inp).2 := by
  have hw : wifi_connection_menu inp.netEnv = false := by
    rcases hnone with h | h <;>
      simp [wifi_connection_menu, hlap, hwired, h]
  refine ⟨hw, ?_⟩
  cases hdb : inp.dualBootChoice <;>
    simp [installation_flow, hdb, hw]

/-- C6 witness: a laptop with a wireless interface but no backend
executables blocks the whole Install flow. -/
theorem wifi_failure_blocks_install_witness :
    wifi_connection_menu noBackendInstallInputs.netEnv = false ∧
    (installation_flow "Install" noBackendInstallInputs).1 = none ∧
    Step.partitionSettings ∉ (installation_flow "Install" noBackendInstallInputs).2 ∧
    Step.diskDiscovery ∉ (installation_flow "Install" noBackendInstallInputs).2 ∧
    Step.imageSelection ∉ (installation_flow "Install" noBackendInstallInputs).2 :=
  wifi_failure_blocks_install "Install" noBackendInstallInputs rfl rfl
    (Or.inl rfl)

/-- C7: the scan sort orders networks by the *string* before the slash
of the quality field, descending, not by numeric signal quality: a
network of quality 9/70 is placed before one of quality 54/70 although
its signal is weaker (the code's own comment says "best first"); the
scan-and-select menu shows at most 10 entries of the sorted list. -/
theorem wifi_sort_not_by_quality :
    sortNetworks [lowQualityNet, highQualityNet] =
      [lowQualityNet, highQualityNet] ∧
    qualityNumerator lowQualityNet < qualityNumerator highQualityNet ∧
    scanMenuNetworks [lowQualityNet, highQualityNet] =
      [lowQualityNet, highQualityNet] ∧
    (∀ ns : List WifiNetwork, (scanMenuNetworks ns).length ≤ 10) := by
  refine ⟨by decide, by decide, by decide, ?_⟩
  intro ns
  exact List.length_take_le 10 (sortNetworks ns)

/-- C9: `print_centered` computes the left margin from the RAW line
length, escape bytes included: a line wrapped in colour codes strips to
`Hello` yet is padded 33 columns on an 80-column terminal, while the
plain `Hello` is padded 37 — the two renderings are not centered at the
same position, contradicting the claim. -/
theorem print_centered_counts_escape_bytes :
    strip_ansi (Colors.DIM ++ "Hello" ++ Colors.ENDC) = "Hello" ∧
    printCenteredPadding 80 (Colors.DIM ++ "Hello" ++ Colors.ENDC) = 33 ∧
    printCenteredPadding 80 "Hello" = 37 ∧
    printCenteredPadding 80 (Colors.DIM ++ "Hello" ++ Colors.ENDC) ≠
      printCenteredPadding 80
        (strip_ansi (Colors.DIM ++ "Hello" ++ Colors.ENDC)) := by
  refine ⟨by decide, by decide, by decide, by decide⟩

/-- C10: both confirmation dialogs start with the affirmative option
highlighted, so an immediate Enter — with no navigation before it —
returns assent, in the plain dialog and in the destructive final
confirmation alike. -/
theorem confirm_enter_assents_immediately :
    confirmOptions.getD 0 "" = "Yes, Continue" ∧
    statusOptions.getD 0 "" = "Yes, Execute Now" ∧
    (∀ rest : List Key, confirm (['\r'] :: rest) = some true) ∧
    (∀ rest : List Key, show_status_screen (['\r'] :: rest) = some true) := by
  refine ⟨rfl, rfl, ?_, ?_⟩ <;> intro rest <;> rfl

/-- C8 counterexample: the Update/Repair flow does NOT skip disk
selection entirely — when the user answers `Select a Disk`, the flow
runs disk discovery and disk selection and passes the chosen disk to the
command with `--device`. -/
theorem update_flow_disk_selection_counterexample :
    Step.diskDiscovery ∈ (update_flow selectDiskUpdateInputs).2 ∧
    Step.diskSelection ∈ (update_flow selectDiskUpdateInputs).2 ∧
    (update_flow selectDiskUpdateInputs).1 =
      some "obsidianctl update a /etc/system.sfs --device /dev/sda" := by
  refine ⟨by decide, by decide, by decide⟩

/-- C8 (amended): the Update and Repair flows select a target slot —
taken from the provisioning tool's status output, defaulting to the
fixed two-slot set a/b whenever the status query fails or yields no slot
lines — and an image source; they never run the dual-boot menu, the
network resolver or the partition-settings editor, though disk selection
is offered as an option (current disk versus an explicitly selected
disk) rather than skipped. -/
theorem update_flow_slots_and_skipped_steps :
    get_current_slots none = ["a", "b"] ∧
    (∀ out : String,
      (∀ line ∈ pySplitChar '\n' out, slotScan line.data = none) →
      get_current_slots (some out) = ["a", "b"]) ∧
    (∀ inp : UpdateInputs,
      Step.dualBootMenu ∉ (update_flow inp).2 ∧
      Step.wifiSetup ∉ (update_flow inp).2 ∧
      Step.partitionSettings ∉ (update_flow inp).2) ∧
    (∀ (inp : UpdateInputs) (cmd : String),
      (update_flow inp).1 = some cmd →
      Step.slotSelection ∈ (update_flow inp).2 ∧
      Step.imageSelection ∈ (update_flow inp).2) := by
  refine ⟨rfl, ?_, ?_, ?_⟩
  · intro out h
    have hnil : (pySplitChar '\n' out).filterMap
        (fun line => (slotScan line.data).map (fun c => String.mk [c])) = [] := by
      rw [List.filterMap_eq_nil_iff]
      intro line hline
      rw [h line hline]
      rfl
    simp [get_current_slots, hnil]
  · intro inp
    exact ⟨fun hmem => absurd (update_flow_steps inp _ hmem) (by decide),
      fun hmem => absurd (update_flow_steps inp _ hmem) (by decide),
      fun hmem => absurd (update_flow_steps inp _ hmem) (by decide)⟩
  · intro inp cmd h
    exact update_flow_some_steps inp cmd h

/-- C8 witness: a status output without slot lines falls back to the
two-slot set, and a completed Update run reached the slot and image
selection steps. -/
theorem update_flow_slots_and_skipped_steps_witness :
    get_current_slots (some "no slot lines") = ["a", "b"] ∧
    (Step.slotSelection ∈ (update_flow selectDiskUpdateInputs).2 ∧
     Step.imageSelection ∈ (update_flow selectDiskUpdateInputs).2) :=
  ⟨update_flow_slots_and_skipped_steps.2.1 "no slot lines" (by decide),
   update_flow_slots_and_skipped_steps.2.2.2 selectDiskUpdateInputs
     "obsidianctl update a /etc/system.sfs --device /dev/sda" (by decide)⟩

end ObsidianWizard
